import Mathlib

/-!
Shallow embedding of the NovaDEX on-chain programs
(`src/programs/swap`, `src/programs/liquidity-pool`,
`src/programs/perpetual-trading`).

Conventions of the embedding:
* `u64` values are `Nat`; raw (unchecked) Rust arithmetic on `u64` is
  modelled with explicit wraparound modulo `2 ^ 64` (`wadd`/`wsub`/`wmul`),
  the release-profile semantics of unchecked integer operations;
* `checked_add`/`checked_sub`/`checked_mul`/`checked_div` return
  `Option Nat` exactly as their Rust counterparts return `Option<u64>`;
  an `.unwrap()` on `None` aborts the transaction, modelled by the
  `Outcome.abort` constructor;
* `i64` values (position size, timestamps) are `Int`;
* `require!(cond, Err)` is an `if` that short-circuits to `Outcome.err`;
* account keys, signers, rent and the SPL-token transfers are Anchor
  account plumbing outside the numeric state machine and are not part of
  the model; the numeric fields of the accounts are carried explicitly.
-/

namespace NovaDEX

/-- One more than the largest `u64` value. -/
def U64 : Nat := 2 ^ 64

/-- Wrapping `u64` addition. -/
def wadd (a b : Nat) : Nat := (a + b) % U64

/-- Wrapping `u64` multiplication. -/
def wmul (a b : Nat) : Nat := (a * b) % U64

/-- Wrapping `u64` subtraction. -/
def wsub (a b : Nat) : Nat := (a % U64 + U64 - b % U64) % U64

/-- Rust `u64::checked_add`. -/
def checked_add (a b : Nat) : Option Nat :=
  if a + b < U64 then some (a + b) else none

/-- Rust `u64::checked_sub`. -/
def checked_sub (a b : Nat) : Option Nat :=
  if b ≤ a then some (a - b) else none

/-- Rust `u64::checked_mul`. -/
def checked_mul (a b : Nat) : Option Nat :=
  if a * b < U64 then some (a * b) else none

/-- Rust `checked_div` (of any width): `none` exactly on a zero divisor. -/
def checked_div (a b : Nat) : Option Nat :=
  if b = 0 then none else some (a / b)

/-- Reinterpret a `u64` bit pattern as an `i64` (the `as i64` cast). -/
def i64_of_u64 (n : Nat) : Int :=
  if n % U64 < 2 ^ 63 then ((n % U64 : Nat) : Int) else ((n % U64 : Nat) : Int) - (U64 : Int)

/-- Rust `u64::wrapping_neg`. -/
def wrapping_neg (a : Nat) : Nat := (U64 - a % U64) % U64

/-- Result of executing one instruction: success, a program error raised by
a `require!`, or an abort (a panicking `.unwrap()` / division by zero). -/
inductive Outcome (ε α : Type) where
  | ok (a : α) : Outcome ε α
  | err (e : ε) : Outcome ε α
  | abort : Outcome ε α
deriving Repr, DecidableEq

namespace Swap

/-- `calculate_swap_amount` from `src/programs/swap/src/lib.rs`
(lines 84–97).  All four arithmetic operations are raw `u64` operations,
modelled with wraparound; the final `/` panics (aborts) on a zero
denominator, hence the `Option`. -/
def calculate_swap_amount
    (reserve_in reserve_out amount_in fee_numerator fee_denominator : Nat) :
    Option Nat :=
  let fee_multiplier := wsub fee_denominator fee_numerator
  let amount_in_with_fee := wmul amount_in fee_multiplier
  let numerator := wmul amount_in_with_fee reserve_out
  let denominator := wadd (wmul reserve_in fee_denominator) amount_in_with_fee
  if denominator = 0 then none else some (numerator / denominator)

/-- The swap quote as the specification words it (§4.3): the same formula
with all three multiplications carried out in wide (128-bit or unbounded)
intermediates, so no wraparound occurs.  Stated here only to be compared
with `calculate_swap_amount`. -/
def quote_swap_spec
    (reserve_in reserve_out amount_in fee_numerator fee_denominator : Nat) :
    Option Nat :=
  let fee_multiplier := fee_denominator - fee_numerator
  let amount_in_with_fee := amount_in * fee_multiplier
  let numerator := amount_in_with_fee * reserve_out
  let denominator := reserve_in * fee_denominator + amount_in_with_fee
  if denominator = 0 then none else some (numerator / denominator)

end Swap

namespace Pool

/-- Error enum of `src/programs/liquidity-pool/src/lib.rs`. -/
inductive PoolError where
  | InvalidFee
  | SlippageExceeded
  | InsufficientLiquidity
deriving Repr, DecidableEq

/-- `remove_liquidity` from `src/programs/liquidity-pool/src/lib.rs`
(lines 124–150), restricted to its numeric core: reserves and the LP mint
supply are read from the token accounts, the two withdrawal amounts are
computed by `u128` multiply / `checked_div` / truncating `as u64` cast,
and the slippage check is the only `require!`.  The burn and the two
transfers are Ledger effects outside the numeric model. -/
def remove_liquidity
    (reserve_a reserve_b lp_total_supply lp_amount min_amount_a min_amount_b : Nat) :
    Outcome PoolError (Nat × Nat) :=
  match checked_div (lp_amount * reserve_a) lp_total_supply with
  | none => .abort
  | some qa =>
    let token_a_amount := qa % U64
    match checked_div (lp_amount * reserve_b) lp_total_supply with
    | none => .abort
    | some qb =>
      let token_b_amount := qb % U64
      if token_a_amount < min_amount_a ∨ token_b_amount < min_amount_b then
        .err .SlippageExceeded
      else
        .ok (token_a_amount, token_b_amount)

end Pool

namespace Perp

/-- Error enum of `src/programs/perpetual-trading/src/lib.rs`. -/
inductive PerpError where
  | Unauthorized
  | InvalidSize
  | InvalidCollateral
  | InvalidLeverage
  | InsufficientCollateral
  | PriceImpactTooHigh
  | SlippageExceeded
  | CannotLiquidate
  | InsufficientCollateralForLiquidation
deriving Repr, DecidableEq

/-- Numeric fields of the `PerpetualMarket` account (the pubkeys and the
bump are account plumbing and are omitted). -/
structure PerpetualMarket where
  initial_margin_ratio : Nat
  maintenance_margin_ratio : Nat
  liquidation_fee : Nat
  total_long_positions : Nat
  total_short_positions : Nat
  funding_rate : Int
  funding_index : Nat
  last_funding_time : Int
  open_interest : Nat
deriving Repr, DecidableEq

/-- Numeric fields of the `Position` account (the `owner` pubkey is
account plumbing and is omitted). -/
structure Position where
  size : Int
  entry_price : Nat
  collateral : Nat
  leverage : Nat
  last_funding_index : Nat
  created_at : Int
deriving Repr, DecidableEq

/-- `initialize` (lines 10–31): the stated numeric fields are set, the
aggregate totals are zeroed; the funding fields keep the all-zero value a
freshly `init`-allocated account starts from. -/
def init_market (initial_margin_ratio maintenance_margin_ratio liquidation_fee : Nat) :
    PerpetualMarket :=
  { initial_margin_ratio := initial_margin_ratio
    maintenance_margin_ratio := maintenance_margin_ratio
    liquidation_fee := liquidation_fee
    total_long_positions := 0
    total_short_positions := 0
    funding_rate := 0
    funding_index := 0
    last_funding_time := 0
    open_interest := 0 }

/-- `get_oracle_price` (lines 288–292): the reference stub always returns
the constant price 5000.  The instruction functions below take the oracle
reading as a parameter so that their arithmetic is specified for every
price the oracle contract could return; every execution against this stub
instantiates the parameter with `get_oracle_price`. -/
def get_oracle_price : Nat := 5000

/-- `calculate_pnl` (lines 294–326).  The `u128` `checked_mul` of two
64-bit quantities cannot overflow; the `as u64` cast truncates, modelled
by `% U64`. -/
def calculate_pnl (size : Int) (entry_price exit_price : Nat) : Nat × Bool :=
  let pnl_raw :=
    if 0 < size then
      if entry_price < exit_price then (exit_price - entry_price) * size.natAbs % U64
      else (entry_price - exit_price) * size.natAbs % U64
    else
      if exit_price < entry_price then (entry_price - exit_price) * size.natAbs % U64
      else (exit_price - entry_price) * size.natAbs % U64
  let is_profit :=
    if 0 < size then decide (entry_price ≤ exit_price)
    else decide (exit_price ≤ entry_price)
  (pnl_raw, is_profit)

/-- `calculate_funding_payment` (lines 328–339). -/
def calculate_funding_payment (size : Int) (last_index current_index : Nat) :
    Nat × Bool :=
  let payment :=
    if last_index < current_index then current_index - last_index
    else last_index - current_index
  let is_received :=
    (decide (0 < size) && decide (current_index < last_index)) ||
    (decide (size < 0) && decide (last_index < current_index))
  (payment, is_received)

/-- `calculate_price_impact` (lines 341–348): returns 0 outright on an
empty market; otherwise `u128` multiply and divide, truncating `as u64`
cast (`% U64`), capped at 1000. -/
def calculate_price_impact (size : Int) (open_interest : Nat) : Nat :=
  if open_interest = 0 then 0
  else
    let impact := size.natAbs * 10000 / max open_interest 1 % U64
    min impact 1000

/-- The aggregate update at the end of `open_position` (lines 86–92):
`checked_add` of `|size|` to the matching side and to the open interest. -/
def open_aggregates (m : PerpetualMarket) (size : Int) : Option PerpetualMarket :=
  if 0 < size then
    match checked_add m.total_long_positions size.natAbs with
    | none => none
    | some l =>
      match checked_add m.open_interest size.natAbs with
      | none => none
      | some oi => some { m with total_long_positions := l, open_interest := oi }
  else
    match checked_add m.total_short_positions size.natAbs with
    | none => none
    | some s =>
      match checked_add m.open_interest size.natAbs with
      | none => none
      | some oi => some { m with total_short_positions := s, open_interest := oi }

/-- The aggregate update shared verbatim by `close_position`
(lines 158–166) and `liquidate_position` (lines 230–238): `checked_sub`
of `|size|` from the matching side and from the open interest. -/
def settle_aggregates (m : PerpetualMarket) (size : Int) : Option PerpetualMarket :=
  if 0 < size then
    match checked_sub m.total_long_positions size.natAbs with
    | none => none
    | some l =>
      match checked_sub m.open_interest size.natAbs with
      | none => none
      | some oi => some { m with total_long_positions := l, open_interest := oi }
  else
    match checked_sub m.total_short_positions size.natAbs with
    | none => none
    | some s =>
      match checked_sub m.open_interest size.natAbs with
      | none => none
      | some oi => some { m with total_short_positions := s, open_interest := oi }

/-- `open_position` (lines 33–95).  `oracle_price` is the value
`get_oracle_price` returns; `now` is the clock timestamp stored in
`created_at`.  The collateral transfer is a Ledger effect outside the
numeric model. -/
def open_position (m : PerpetualMarket) (now : Int) (oracle_price : Nat)
    (size : Int) (collateral leverage max_price_impact : Nat) :
    Outcome PerpError (PerpetualMarket × Position) :=
  if size = 0 then .err .InvalidSize
  else if collateral = 0 then .err .InvalidCollateral
  else if ¬ (0 < leverage ∧ leverage ≤ 20) then .err .InvalidLeverage
  else
    let price := oracle_price
    let notional_value := wmul size.natAbs price
    match checked_mul notional_value m.initial_margin_ratio with
    | none => .abort
    | some nm =>
      let required_margin := nm / 10000
      if collateral < required_margin / leverage then .err .InsufficientCollateral
      else
        let price_impact := calculate_price_impact size m.open_interest
        if max_price_impact < price_impact then .err .PriceImpactTooHigh
        else
          let position : Position :=
            { size := size
              entry_price := price
              collateral := collateral
              leverage := leverage
              last_funding_index := m.funding_index
              created_at := now }
          match open_aggregates m size with
          | none => .abort
          | some m' => .ok (m', position)

/-- The pnl leg of the settlement in `close_position` (lines 117–125). -/
def settle_pnl (collateral pnl : Nat) ( is_profit : Bool) : Option Nat :=
  if is_profit then checked_add collateral pnl
  else if pnl ≤ collateral then checked_sub collateral pnl
  else some 0

/-- The funding leg of the settlement in `close_position`
(lines 127–132): note the missing clamp-to-zero branch. -/
def settle_funding (settlement payment : Nat) ( is_received : Bool) : Option Nat :=
  if is_received then checked_add settlement payment
  else if payment ≤ settlement then checked_sub settlement payment
  else some settlement

/-- `close_position` (lines 97–172); returns the updated market and the
settlement amount transferred back to the user. -/
def close_position (m : PerpetualMarket) (p : Position)
    (oracle_price min_receive_amount : Nat) :
    Outcome PerpError (PerpetualMarket × Nat) :=
  let current_price := oracle_price
  let pnl := calculate_pnl p.size p.entry_price current_price
  let funding := calculate_funding_payment p.size p.last_funding_index m.funding_index
  match settle_pnl p.collateral pnl.1 pnl.2 with
  | none => .abort
  | some s1 =>
    match settle_funding s1 funding.1 funding.2 with
    | none => .abort
    | some settlement_amount =>
      if settlement_amount < min_receive_amount then .err .SlippageExceeded
      else
        match settle_aggregates m p.size with
        | none => .abort
        | some m' => .ok (m', settlement_amount)

/-- `liquidate_position` (lines 174–244); returns the updated market and
the fee transferred to the liquidator. -/
def liquidate_position (m : PerpetualMarket) (p : Position) (oracle_price : Nat) :
    Outcome PerpError (PerpetualMarket × Nat) :=
  let current_price := oracle_price
  let pnl := (calculate_pnl p.size p.entry_price current_price).1
  let position_notional := wmul p.size.natAbs current_price
  match (if pnl ≤ p.collateral then checked_sub p.collateral pnl else some 0) with
  | none => .abort
  | some remaining_collateral =>
    match checked_div (remaining_collateral * 10000) position_notional with
    | none => .abort
    | some mr =>
      let margin_ratio := mr % U64
      if margin_ratio < m.maintenance_margin_ratio then
        match checked_mul position_notional m.liquidation_fee with
        | none => .abort
        | some lf =>
          match checked_div lf 10000 with
          | none => .abort
          | some liquidation_fee =>
            if remaining_collateral < liquidation_fee then
              .err .InsufficientCollateralForLiquidation
            else
              match settle_aggregates m p.size with
              | none => .abort
              | some m' => .ok (m', liquidation_fee)
      else .err .CannotLiquidate

/-- The imbalance rate computed inside `update_funding_rate`
(lines 259–271): `u128` multiply and divide, truncating `as u64` cast. -/
def imbalance_rate (long_size short_size : Nat) : Nat :=
  if short_size < long_size then
    (long_size - short_size) * 10000 / max long_size 1 % U64
  else
    (short_size - long_size) * 10000 / max short_size 1 % U64

/-- `update_funding_rate` (lines 246–285).  `now` is the clock timestamp.
The stored signed rate is the `u64` magnitude (negated by `wrapping_neg`
for a short-heavy market) reinterpreted as `i64`. -/
def update_funding_rate (m : PerpetualMarket) (now : Int) :
    Outcome PerpError PerpetualMarket :=
  let long_size := m.total_long_positions
  let short_size := m.total_short_positions
  if long_size = 0 ∧ short_size = 0 then .ok m
  else
    let ir := imbalance_rate long_size short_size
    let is_positive := decide (short_size < long_size)
    let base_rate := 5
    let funding_rate := base_rate + ir / 100
    match checked_add m.funding_index funding_rate with
    | none => .abort
    | some fi =>
      .ok { m with
              funding_rate :=
                if is_positive then (funding_rate : Int)
                else i64_of_u64 (wrapping_neg funding_rate)
              funding_index := fi
              last_funding_time := now }

/-- Iterated `update_funding_rate` over a list of clock readings. -/
def update_funding_seq : PerpetualMarket → List Int → Outcome PerpError PerpetualMarket
  | m, [] => .ok m
  | m, t :: ts =>
    match update_funding_rate m t with
    | .ok m' => update_funding_seq m' ts
    | .err e => .err e
    | .abort => .abort

/-- The settlement amount of `close_position` as §4.5 of the specification
words it: start from the collateral, add the pnl magnitude on profit,
subtract it when affordable, otherwise clamp to 0; then add the funding
magnitude when received, subtract it when affordable, otherwise leave the
settlement unchanged.  Stated with unbounded arithmetic, to be compared
with the checked arithmetic of `close_position`. -/
def close_settlement_spec (m : PerpetualMarket) (p : Position) (exit_price : Nat) : Nat :=
  let pnl := calculate_pnl p.size p.entry_price exit_price
  let funding := calculate_funding_payment p.size p.last_funding_index m.funding_index
  let s1 :=
    if pnl.2 then p.collateral + pnl.1
    else if pnl.1 ≤ p.collateral then p.collateral - pnl.1
    else 0
  if funding.2 then s1 + funding.1
  else if funding.1 ≤ s1 then s1 - funding.1
  else s1

/-- A concrete market used to instantiate the theorems below. -/
def ex_market_1000_400 : PerpetualMarket :=
  { init_market 500 250 100 with total_long_positions := 1000, total_short_positions := 400 }

/-- The market `ex_market_1000_400` after one funding update at time 7. -/
def ex_market_1000_400_updated : PerpetualMarket :=
  { ex_market_1000_400 with funding_rate := 65, funding_index := 65, last_funding_time := 7 }

/-- The market of `init_market 500 250 100` after opening one long position
of size 1. -/
def ex_market_opened : PerpetualMarket :=
  { init_market 500 250 100 with total_long_positions := 1, open_interest := 1 }

/-- The position created by that concrete `open_position` call. -/
def ex_position : Position :=
  { size := 1, entry_price := 5000, collateral := 250, leverage := 1,
    last_funding_index := 0, created_at := 0 }

/-- Global state of one perpetual market: the market account together
with the set of currently open position accounts. -/
structure GState where
  market : PerpetualMarket
  positions : List Position
deriving Repr, DecidableEq

/-- One successful instruction against the market: opening a position,
closing or liquidating one of the open positions, or a funding update. -/
inductive Step : GState → GState → Prop where
  | openPos (s : GState) (now : Int) (price : Nat) (size : Int)
      (collateral leverage max_price_impact : Nat)
      (m' : PerpetualMarket) (p : Position)
      (h : open_position s.market now price size collateral leverage max_price_impact
            = .ok (m', p)) :
      Step s ⟨m', p :: s.positions⟩
  | closePos (s : GState) (l₁ l₂ : List Position) (p : Position)
      (price min_receive : Nat) (m' : PerpetualMarket) (amount : Nat)
      (hmem : s.positions = l₁ ++ p :: l₂)
      (h : close_position s.market p price min_receive = .ok (m', amount)) :
      Step s ⟨m', l₁ ++ l₂⟩
  | liqPos (s : GState) (l₁ l₂ : List Position) (p : Position)
      (price : Nat) (m' : PerpetualMarket) (fee : Nat)
      (hmem : s.positions = l₁ ++ p :: l₂)
      (h : liquidate_position s.market p price = .ok (m', fee)) :
      Step s ⟨m', l₁ ++ l₂⟩
  | funding (s : GState) (now : Int) (m' : PerpetualMarket)
      (h : update_funding_rate s.market now = .ok m') :
      Step s ⟨m', s.positions⟩

/-- States reachable from a freshly initialized market by successful
instructions. -/
inductive Reach : GState → Prop where
  | init (imr mmr lf : Nat) : Reach ⟨init_market imr mmr lf, []⟩
  | step {s t : GState} : Reach s → Step s t → Reach t

end Perp

end NovaDEX


namespace NovaDEX

theorem checked_add_some {a b v : Nat} : checked_add a b = some v ↔ a + b < U64 ∧ v = a + b := by
  unfold checked_add; split <;> simp_all [eq_comm]

theorem checked_sub_some {a b v : Nat} : checked_sub a b = some v ↔ b ≤ a ∧ v = a - b := by
  unfold checked_sub; split <;> simp_all [eq_comm]

theorem checked_mul_some {a b v : Nat} : checked_mul a b = some v ↔ a * b < U64 ∧ v = a * b := by
  unfold checked_mul; split <;> simp_all [eq_comm]

theorem checked_div_some {a b v : Nat} : checked_div a b = some v ↔ b ≠ 0 ∧ v = a / b := by
  unfold checked_div; split <;> simp_all [eq_comm]

end NovaDEX

namespace NovaDEX.Perp

theorem open_aggregates_some {m : PerpetualMarket} {size : Int} {m' : PerpetualMarket}
    (h : open_aggregates m size = some m') :
    m'.funding_index = m.funding_index ∧
    m'.open_interest = m.open_interest + size.natAbs ∧
    m'.total_long_positions + m'.total_short_positions
      = m.total_long_positions + m.total_short_positions + size.natAbs := by
  unfold open_aggregates at h
  repeat' split at h
  all_goals simp_all [checked_add_some]
  all_goals subst h
  all_goals simp
  all_goals omega

theorem settle_aggregates_some {m : PerpetualMarket} {size : Int} {m' : PerpetualMarket}
    (h : settle_aggregates m size = some m') :
    m'.funding_index = m.funding_index ∧
    size.natAbs ≤ m.open_interest ∧
    m'.open_interest = m.open_interest - size.natAbs ∧
    ((size.natAbs ≤ m.total_long_positions ∧
        m'.total_long_positions = m.total_long_positions - size.natAbs ∧
        m'.total_short_positions = m.total_short_positions) ∨
     (size.natAbs ≤ m.total_short_positions ∧
        m'.total_short_positions = m.total_short_positions - size.natAbs ∧
        m'.total_long_positions = m.total_long_positions)) := by
  unfold settle_aggregates at h
  repeat' split at h
  all_goals simp_all [checked_sub_some]
  all_goals subst h
  all_goals simp

end NovaDEX.Perp

namespace NovaDEX.Perp

theorem open_position_ok {m : PerpetualMarket} {now : Int} {price : Nat} {size : Int}
    {collateral leverage max_price_impact : Nat} {m' : PerpetualMarket} {p : Position}
    (h : open_position m now price size collateral leverage max_price_impact = .ok (m', p)) :
    p.last_funding_index = m.funding_index ∧
    m'.funding_index = m.funding_index ∧
    m'.open_interest = m.open_interest + size.natAbs ∧
    m'.total_long_positions + m'.total_short_positions
      = m.total_long_positions + m.total_short_positions + size.natAbs := by
  simp only [open_position] at h
  repeat' split at h
  all_goals try contradiction
  rename_i m2 heq
  simp only [Outcome.ok.injEq, Prod.mk.injEq] at h
  obtain ⟨rfl, rfl⟩ := h
  have H := open_aggregates_some heq
  exact ⟨rfl, H.1, H.2.1, H.2.2⟩

theorem close_position_ok {m : PerpetualMarket} {p : Position}
    {price min_receive : Nat} {m' : PerpetualMarket} {amount : Nat}
    (h : close_position m p price min_receive = .ok (m', amount)) :
    m'.funding_index = m.funding_index ∧
    p.size.natAbs ≤ m.open_interest ∧
    m'.open_interest = m.open_interest - p.size.natAbs ∧
    ((p.size.natAbs ≤ m.total_long_positions ∧
        m'.total_long_positions = m.total_long_positions - p.size.natAbs ∧
        m'.total_short_positions = m.total_short_positions) ∨
     (p.size.natAbs ≤ m.total_short_positions ∧
        m'.total_short_positions = m.total_short_positions - p.size.natAbs ∧
        m'.total_long_positions = m.total_long_positions)) := by
  simp only [close_position] at h
  repeat' split at h
  all_goals try contradiction
  rename_i m2 heq
  simp only [Outcome.ok.injEq, Prod.mk.injEq] at h
  obtain ⟨rfl, rfl⟩ := h
  exact settle_aggregates_some heq

theorem liquidate_position_ok {m : PerpetualMarket} {p : Position}
    {price : Nat} {m' : PerpetualMarket} {fee : Nat}
    (h : liquidate_position m p price = .ok (m', fee)) :
    m'.funding_index = m.funding_index ∧
    p.size.natAbs ≤ m.open_interest ∧
    m'.open_interest = m.open_interest - p.size.natAbs ∧
    ((p.size.natAbs ≤ m.total_long_positions ∧
        m'.total_long_positions = m.total_long_positions - p.size.natAbs ∧
        m'.total_short_positions = m.total_short_positions) ∨
     (p.size.natAbs ≤ m.total_short_positions ∧
        m'.total_short_positions = m.total_short_positions - p.size.natAbs ∧
        m'.total_long_positions = m.total_long_positions)) := by
  simp only [liquidate_position] at h
  repeat' split at h
  all_goals try contradiction
  rename_i m2 heq
  simp only [Outcome.ok.injEq, Prod.mk.injEq] at h
  obtain ⟨rfl, rfl⟩ := h
  exact settle_aggregates_some heq

theorem update_funding_rate_ok {m : PerpetualMarket} {now : Int} {m' : PerpetualMarket}
    (h : update_funding_rate m now = .ok m') :
    m.funding_index ≤ m'.funding_index := by
  simp only [update_funding_rate] at h
  split at h
  · simp only [Outcome.ok.injEq] at h
    subst h
    exact le_refl _
  · split at h
    · contradiction
    · rename_i fi heq
      simp only [Outcome.ok.injEq] at h
      subst h
      rw [checked_add_some] at heq
      simp
      omega

end NovaDEX.Perp

namespace NovaDEX.Perp

theorem funding_payment_flag_of_le {size : Int} {last cur : Nat} (h : last ≤ cur) :
    (0 < size → (calculate_funding_payment size last cur).2 = false) ∧
    (size < 0 → ((calculate_funding_payment size last cur).2 = true ↔ last < cur)) := by
  unfold calculate_funding_payment
  constructor
  · intro hs
    have h1 : ¬ cur < last := Nat.not_lt.mpr h
    have h2 : ¬ size < 0 := by omega
    simp [h1, h2]
  · intro hs
    have h2 : ¬ 0 < size := by omega
    simp [h2, hs]

theorem reach_last_funding_le (s : GState) (h : Reach s) :
    ∀ p ∈ s.positions, p.last_funding_index ≤ s.market.funding_index := by
  induction h with
  | init imr mmr lf => intro p hp; simp at hp
  | step hr hstep ih =>
    cases hstep with
    | openPos now price size collateral leverage mpi m' p h =>
      intro q hq
      have H := open_position_ok h
      simp only [List.mem_cons] at hq
      rcases hq with rfl | hq
      · simp only []
        omega
      · have := ih q hq
        simp only []
        omega
    | closePos l1 l2 p price minr m' amt hmem h =>
      intro q hq
      have H := close_position_ok h
      have hq' : q ∈ l1 ++ p :: l2 := by
        simp only [List.mem_append, List.mem_cons] at hq ⊢
        tauto
      rw [← hmem] at hq'
      have := ih q hq'
      simp only []
      omega
    | liqPos l1 l2 p price m' fee hmem h =>
      intro q hq
      have H := liquidate_position_ok h
      have hq' : q ∈ l1 ++ p :: l2 := by
        simp only [List.mem_append, List.mem_cons] at hq ⊢
        tauto
      rw [← hmem] at hq'
      have := ih q hq'
      simp only []
      omega
    | funding now m' h =>
      intro q hq
      have H := update_funding_rate_ok h
      have := ih q hq
      simp only []
      omega

end NovaDEX.Perp

namespace NovaDEX.Perp

/-- C1: for every sequence of successful `open_position`, `close_position`
and `liquidate_position` calls starting from an initialized market,
`open_interest = total_long_positions + total_short_positions` holds after
every call (funding updates, which touch neither side, are also allowed in
the sequence). -/
theorem reach_open_interest_eq_totals (s : GState) (h : Reach s) :
    s.market.open_interest
      = s.market.total_long_positions + s.market.total_short_positions := by
  induction h with
  | init imr mmr lf => rfl
  | step hr hstep ih =>
    cases hstep with
    | openPos now price size collateral leverage mpi m' p h =>
      have H := open_position_ok h
      simp only []
      omega
    | closePos l1 l2 p price minr m' amt hmem h =>
      have H := close_position_ok h
      simp only []
      omega
    | liqPos l1 l2 p price m' fee hmem h =>
      have H := liquidate_position_ok h
      simp only []
      omega
    | funding now m' h =>
      simp only [update_funding_rate] at h
      split at h
      · simp only [Outcome.ok.injEq] at h
        subst h
        exact ih
      · split at h
        · contradiction
        · simp only [Outcome.ok.injEq] at h
          subst h
          simpa using ih

/-- C1 witness: the invariant evaluated on a concrete reachable state. -/
theorem reach_open_interest_eq_totals_witness :
    (init_market 500 250 100).open_interest
      = (init_market 500 250 100).total_long_positions
        + (init_market 500 250 100).total_short_positions :=
  reach_open_interest_eq_totals ⟨init_market 500 250 100, []⟩ (Reach.init 500 250 100)

/-- C10: in every reachable state a position records a funding index no
newer than the market's (`last_funding_index ≤ funding_index`), so in
`close_position` the `is_received` flag from `calculate_funding_payment`
is `false` for every long position, while a short position receives the
funding magnitude exactly when the index advanced since it was opened. -/
theorem funding_direction_invariant (s : GState) (h : Reach s) :
    ∀ p ∈ s.positions,
      p.last_funding_index ≤ s.market.funding_index ∧
      (0 < p.size →
        (calculate_funding_payment p.size p.last_funding_index s.market.funding_index).2
          = false) ∧
      (p.size < 0 →
        ((calculate_funding_payment p.size p.last_funding_index s.market.funding_index).2
            = true
          ↔ p.last_funding_index < s.market.funding_index)) := by
  intro p hp
  have hle := reach_last_funding_le s h p hp
  have H := @funding_payment_flag_of_le p.size _ _ hle
  exact ⟨hle, H.1, H.2⟩

/-- C10 witness: the opened long position in a concrete two-step reachable
state never has funding added on close. -/
theorem funding_direction_invariant_witness :
    (0 : Nat) ≤ (0 : Nat) ∧ (calculate_funding_payment 1 0 0).2 = false := by
  have hreach : Reach ⟨{ init_market 500 250 100 with
                           total_long_positions := 1, open_interest := 1 },
                       [{ size := 1, entry_price := 5000, collateral := 250, leverage := 1,
                          last_funding_index := 0, created_at := 0 }]⟩ :=
    Reach.step (Reach.init 500 250 100)
      (Step.openPos ⟨init_market 500 250 100, []⟩ 0 5000 1 250 1 0
        { init_market 500 250 100 with total_long_positions := 1, open_interest := 1 }
        { size := 1, entry_price := 5000, collateral := 250, leverage := 1,
          last_funding_index := 0, created_at := 0 }
        (by decide))
  have H := funding_direction_invariant _ hreach
      { size := 1, entry_price := 5000, collateral := 250, leverage := 1,
        last_funding_index := 0, created_at := 0 }
      (by simp)
  exact ⟨H.1, H.2.1 (by decide)⟩

end NovaDEX.Perp

namespace NovaDEX

/-- C2: with `lp_total_supply = 0` the `remove_liquidity` computation hits
`checked_div(..., 0).unwrap()` and aborts with a generic arithmetic
failure; it never raises the dedicated `InsufficientLiquidity` error the
specification requires, because no explicit zero-supply guard exists. -/
theorem Pool.remove_liquidity_zero_supply_aborts
    (reserve_a reserve_b lp_amount min_amount_a min_amount_b : Nat) :
    Pool.remove_liquidity reserve_a reserve_b 0 lp_amount min_amount_a min_amount_b
        = Outcome.abort ∧
    Pool.remove_liquidity reserve_a reserve_b 0 lp_amount min_amount_a min_amount_b
        ≠ Outcome.err Pool.PoolError.InsufficientLiquidity := by
  constructor
  · simp [Pool.remove_liquidity, checked_div]
  · simp [Pool.remove_liquidity, checked_div]

/-- C3: on small inputs the narrow `u64` quote agrees with the wide
formula (and equals 90 on the documented example), but the three raw
64-bit multiplications overflow for large reserves: at
`reserve_in = reserve_out = amount_in = 2 ^ 32` with fees 3/1000 the
numerator wraps to 0 and the program quotes 0 where the specification's
wide-intermediate formula yields 2144257583. -/
theorem Swap.swap_amount_narrow_vs_wide :
    Swap.calculate_swap_amount 1000 1000 100 3 1000 = some 90 ∧
    Swap.quote_swap_spec 1000 1000 100 3 1000 = some 90 ∧
    Swap.calculate_swap_amount 4294967296 4294967296 4294967296 3 1000 = some 0 ∧
    Swap.quote_swap_spec 4294967296 4294967296 4294967296 3 1000 = some 2144257583 ∧
    Swap.calculate_swap_amount 4294967296 4294967296 4294967296 3 1000
      ≠ Swap.quote_swap_spec 4294967296 4294967296 4294967296 3 1000 := by
  refine ⟨by decide, by decide, by decide, by decide, by decide⟩

/-- C7: a concrete swap with a valid fee pair (3 < 1000) and positive
reserves whose `u64`-wrapped quote exceeds the whole output reserve, so
the constant product strictly decreases. -/
theorem Swap.constant_product_decrease_at_overflow :
    (0 : Nat) < 1 ∧ (3 : Nat) < 1000 ∧
    Swap.calculate_swap_amount 1 1 13321620594855443493 3 1000
      = some 18446744073709550617 ∧
    ¬ (((1 : Int) + 13321620594855443493) * ((1 : Int) - 18446744073709550617)
        ≥ (1 : Int) * 1) := by
  refine ⟨by decide, by decide, by decide, by decide⟩

end NovaDEX

namespace NovaDEX.Perp

/-- C4 counterexample: on an empty market (`open_interest = 0`)
`calculate_price_impact` returns 0, not the claimed capped value
`min(|size| * 10000 / max(open_interest, 1), 1000) = 1000`; consequently a
concrete `open_position` with `max_price_impact = 500 < 1000` succeeds
where the claimed formula says it must fail `PriceImpactTooHigh`. -/
theorem price_impact_empty_market_counterexample :
    calculate_price_impact 1 0 = 0 ∧
    min ((1 : Int).natAbs * 10000 / max 0 1) 1000 = 1000 ∧
    calculate_price_impact 1 0 ≠ min ((1 : Int).natAbs * 10000 / max 0 1) 1000 ∧
    (500 : Nat) < min ((1 : Int).natAbs * 10000 / max 0 1) 1000 ∧
    open_position (init_market 500 250 100) 0 5000 1 250 1 500
      ≠ Outcome.err PerpError.PriceImpactTooHigh := by
  refine ⟨by decide, by decide, by decide, by decide, by decide⟩

/-- C4 amended: the computed price impact is 0 on an empty market and
`min(|size| * 10000 / open_interest, 1000)` otherwise (assuming the
truncating `as u64` cast is lossless), and — once the earlier validation
checks pass — `open_position` fails `PriceImpactTooHigh` exactly when this
value exceeds `max_price_impact`. -/
theorem open_position_price_impact_amended
    (m : PerpetualMarket) (now : Int) (price : Nat) (size : Int)
    (collateral leverage max_price_impact : Nat)
    (hs : size ≠ 0) (hc : collateral ≠ 0)
    (hl : 0 < leverage ∧ leverage ≤ 20)
    (hm : wmul size.natAbs price * m.initial_margin_ratio < U64)
    (hcol : ¬ collateral
        < wmul size.natAbs price * m.initial_margin_ratio / 10000 / leverage)
    (htr : size.natAbs * 10000 / max m.open_interest 1 < U64) :
    calculate_price_impact size m.open_interest
      = (if m.open_interest = 0 then 0
         else min (size.natAbs * 10000 / m.open_interest) 1000) ∧
    (open_position m now price size collateral leverage max_price_impact
        = Outcome.err PerpError.PriceImpactTooHigh
      ↔ max_price_impact < calculate_price_impact size m.open_interest) := by
  have himp : calculate_price_impact size m.open_interest
      = (if m.open_interest = 0 then 0
         else min (size.natAbs * 10000 / m.open_interest) 1000) := by
    unfold calculate_price_impact
    split
    · rfl
    · rename_i hoi
      rw [Nat.mod_eq_of_lt htr, Nat.max_eq_left (by omega)]
  refine ⟨himp, ?_⟩
  have hmul : checked_mul (wmul size.natAbs price) m.initial_margin_ratio
      = some (wmul size.natAbs price * m.initial_margin_ratio) := by
    rw [checked_mul_some]
    exact ⟨hm, rfl⟩
  simp only [open_position, if_neg hs, if_neg hc, if_neg (not_not_intro hl), hmul,
    if_neg hcol]
  split
  · rename_i hI
    simp [hI]
  · rename_i hI
    cases hagg : open_aggregates m size <;> simp [hagg, hI]

/-- C4 witness: the amended characterization evaluated on a concrete
non-empty market. -/
theorem open_position_price_impact_amended_witness :
    (calculate_price_impact 1 { init_market 500 250 100 with
        total_long_positions := 1, open_interest := 1 }.open_interest
      = (if ({ init_market 500 250 100 with
                total_long_positions := 1, open_interest := 1 }
              : PerpetualMarket).open_interest = 0 then 0
         else min ((1 : Int).natAbs * 10000
            / { init_market 500 250 100 with
                  total_long_positions := 1, open_interest := 1 }.open_interest) 1000)) ∧
    (open_position { init_market 500 250 100 with
        total_long_positions := 1, open_interest := 1 } 0 5000 1 250 1 500
        = Outcome.err PerpError.PriceImpactTooHigh
      ↔ (500 : Nat) < calculate_price_impact 1 { init_market 500 250 100 with
            total_long_positions := 1, open_interest := 1 }.open_interest) :=
  open_position_price_impact_amended
    { init_market 500 250 100 with total_long_positions := 1, open_interest := 1 }
    0 5000 1 250 1 500 (by decide) (by decide) (by decide) (by decide) (by decide)
    (by decide)

end NovaDEX.Perp

namespace NovaDEX.Perp

theorem update_funding_seq_ok_mono :
    ∀ (ns : List Int) (m m₂ : PerpetualMarket),
      update_funding_seq m ns = .ok m₂ → m.funding_index ≤ m₂.funding_index := by
  intro ns
  induction ns with
  | nil =>
    intro m m₂ h
    simp only [update_funding_seq, Outcome.ok.injEq] at h
    subst h
    exact le_refl _
  | cons t ts ih =>
    intro m m₂ h
    simp only [update_funding_seq] at h
    cases hu : update_funding_rate m t with
    | ok mm =>
      rw [hu] at h
      exact le_trans (update_funding_rate_ok hu) (ih mm m₂ h)
    | err e =>
      rw [hu] at h
      simp at h
    | abort =>
      rw [hu] at h
      simp at h

/-- C9: once the size/collateral/leverage checks pass,
`open_position` fails `InsufficientCollateral` exactly when
`collateral < (|size| * oracle_price * initial_margin_ratio / 10000) / leverage`
(integer divisions), and the threshold is antitone in the leverage, so a
larger leverage relaxes the requirement. -/
theorem open_position_collateral_iff
    (m : PerpetualMarket) (now : Int) (price : Nat) (size : Int)
    (collateral leverage max_price_impact l₁ l₂ : Nat)
    (hs : size ≠ 0) (hc : collateral ≠ 0) (hl : 0 < leverage ∧ leverage ≤ 20)
    (hw : size.natAbs * price < U64)
    (hm : size.natAbs * price * m.initial_margin_ratio < U64)
    (h₁ : 0 < l₁) (h₂ : l₁ ≤ l₂) :
    (open_position m now price size collateral leverage max_price_impact
        = Outcome.err PerpError.InsufficientCollateral
      ↔ collateral < size.natAbs * price * m.initial_margin_ratio / 10000 / leverage) ∧
    size.natAbs * price * m.initial_margin_ratio / 10000 / l₂
      ≤ size.natAbs * price * m.initial_margin_ratio / 10000 / l₁ := by
  have hwm : wmul size.natAbs price = size.natAbs * price := Nat.mod_eq_of_lt hw
  constructor
  · have hmul : checked_mul (wmul size.natAbs price) m.initial_margin_ratio
        = some (size.natAbs * price * m.initial_margin_ratio) := by
      rw [checked_mul_some, hwm]
      exact ⟨hm, rfl⟩
    simp only [open_position, if_neg hs, if_neg hc, if_neg (not_not_intro hl), hmul]
    split
    · rename_i hlt
      simp [hlt]
    · rename_i hlt
      simp only [hlt, iff_false]
      split
      · simp
      · cases hagg : open_aggregates m size <;> simp [hagg]
  · exact Nat.div_le_div_left h₂ h₁

/-- C9 witness: a concrete call in which the collateral exactly meets the
threshold, so `InsufficientCollateral` is not raised. -/
theorem open_position_collateral_iff_witness :
    (open_position (init_market 500 250 100) 0 5000 1 250 1 0
        = Outcome.err PerpError.InsufficientCollateral
      ↔ (250 : Nat) < (1 : Int).natAbs * 5000 * (init_market 500 250 100).initial_margin_ratio
          / 10000 / 1) ∧
    (1 : Int).natAbs * 5000 * (init_market 500 250 100).initial_margin_ratio / 10000 / 2
      ≤ (1 : Int).natAbs * 5000 * (init_market 500 250 100).initial_margin_ratio / 10000 / 1 :=
  open_position_collateral_iff (init_market 500 250 100) 0 5000 1 250 1 0 1 2
    (by decide) (by decide) (by decide) (by decide) (by decide) (by decide) (by decide)

/-- C8: every successful `update_funding_rate` leaves `funding_index`
no smaller; with at least one open position it adds exactly the unsigned
magnitude `5 + imbalance_rate / 100` regardless of the rate's sign, which
is 65 for totals 1000/400; and the index stays non-decreasing across any
further sequence of successful calls. -/
theorem funding_index_monotone
    (m : PerpetualMarket) (now : Int) (m' : PerpetualMarket)
    (ns : List Int) (m₂ : PerpetualMarket)
    (h : update_funding_rate m now = .ok m')
    (hseq : update_funding_seq m' ns = .ok m₂) :
    m.funding_index ≤ m'.funding_index ∧
    ((0 < m.total_long_positions ∨ 0 < m.total_short_positions) →
      m'.funding_index = m.funding_index
        + (5 + imbalance_rate m.total_long_positions m.total_short_positions / 100)) ∧
    (m.total_long_positions = 1000 → m.total_short_positions = 400 →
      5 + imbalance_rate m.total_long_positions m.total_short_positions / 100 = 65 ∧
      m'.funding_index = m.funding_index + 65) ∧
    m.funding_index ≤ m₂.funding_index := by
  have hmono := update_funding_seq_ok_mono ns m' m₂ hseq
  simp only [update_funding_rate] at h
  split at h
  · rename_i hz
    simp only [Outcome.ok.injEq] at h
    subst h
    exact ⟨le_refl _, fun hpos => by omega, fun h1 h4 => by omega, hmono⟩
  · rename_i hz
    split at h
    · contradiction
    · rename_i fi heq
      rw [checked_add_some] at heq
      simp only [Outcome.ok.injEq] at h
      subst h
      have hstep : m.funding_index ≤ fi := by omega
      refine ⟨by simp; omega, fun hpos => by simp; omega, fun h1 h4 => ?_,
        le_trans hstep hmono⟩
      have : imbalance_rate m.total_long_positions m.total_short_positions = 6000 := by
        rw [h1, h4]
        decide
      constructor
      · omega
      · simp
        omega

/-- C8 witness: the concrete 1000-long / 400-short market gains exactly
65 on its funding index. -/
theorem funding_index_monotone_witness :
    ex_market_1000_400.funding_index ≤ ex_market_1000_400_updated.funding_index ∧
    5 + imbalance_rate 1000 400 / 100 = 65 ∧
    ex_market_1000_400_updated.funding_index = ex_market_1000_400.funding_index + 65 := by
  have H := funding_index_monotone ex_market_1000_400 7 ex_market_1000_400_updated
    [] ex_market_1000_400_updated (by decide) (by decide)
  exact ⟨H.1, (H.2.2.1 rfl rfl).1, (H.2.2.1 rfl rfl).2⟩

end NovaDEX.Perp

namespace NovaDEX.Perp

theorem pnl_magnitude {size : Int} {entry_price exit_price : Nat}
    (h : (if entry_price ≤ exit_price then exit_price - entry_price
          else entry_price - exit_price) * size.natAbs < U64) :
    (calculate_pnl size entry_price exit_price).1
      = (if entry_price ≤ exit_price then exit_price - entry_price
         else entry_price - exit_price) * size.natAbs := by
  by_cases hle : entry_price ≤ exit_price
  · rw [if_pos hle] at h ⊢
    simp only [calculate_pnl]
    split
    · split
      · exact Nat.mod_eq_of_lt h
      · have he : entry_price = exit_price := by omega
        rw [he]
        simp
    · split
      · omega
      · exact Nat.mod_eq_of_lt h
  · rw [if_neg hle] at h ⊢
    simp only [calculate_pnl]
    split
    · split
      · omega
      · exact Nat.mod_eq_of_lt h
    · split
      · exact Nat.mod_eq_of_lt h
      · omega

end NovaDEX.Perp

namespace NovaDEX.Perp

theorem settle_pnl_eq (c pnl : Nat) (b : Bool) (h : b = true → c + pnl < U64) :
    settle_pnl c pnl b
      = some (if b then c + pnl else if pnl ≤ c then c - pnl else 0) := by
  unfold settle_pnl checked_add checked_sub
  cases b <;> split_ifs <;> simp_all

theorem settle_funding_eq (s1 pay : Nat) (b : Bool) (h : b = true → s1 + pay < U64) :
    settle_funding s1 pay b
      = some (if b then s1 + pay else if pay ≤ s1 then s1 - pay else s1) := by
  unfold settle_funding checked_add checked_sub
  cases b <;> split_ifs <;> simp_all

/-- C5: in `close_position` the settlement starts at the collateral, adds
the pnl magnitude `|exit_price - entry_price| * |size|` on profit,
subtracts it when affordable, clamps to 0 otherwise; then adds the funding
magnitude when received, subtracts it when affordable, and otherwise
leaves the settlement unchanged (no clamp in the funding step); the call
fails `SlippageExceeded` exactly when the resulting settlement is below
`min_receive_amount`. -/
theorem close_position_settlement_spec
    (m : PerpetualMarket) (p : Position) (price min_receive : Nat)
    (m' : PerpetualMarket) (amt : Nat)
    (hpnl : (if p.entry_price ≤ price then price - p.entry_price
             else p.entry_price - price) * p.size.natAbs < U64)
    (hbound : p.collateral
        + (if p.entry_price ≤ price then price - p.entry_price
           else p.entry_price - price) * p.size.natAbs
        + (calculate_funding_payment p.size p.last_funding_index m.funding_index).1
        < U64) :
    (calculate_pnl p.size p.entry_price price).1
      = (if p.entry_price ≤ price then price - p.entry_price
         else p.entry_price - price) * p.size.natAbs ∧
    (close_position m p price min_receive = Outcome.err PerpError.SlippageExceeded
      ↔ close_settlement_spec m p price < min_receive) ∧
    (close_position m p price min_receive = Outcome.ok (m', amt)
      → amt = close_settlement_spec m p price) := by
  have hmag := @pnl_magnitude p.size p.entry_price price hpnl
  have hb1 : p.collateral + (calculate_pnl p.size p.entry_price price).1
      + (calculate_funding_payment p.size p.last_funding_index m.funding_index).1
      < U64 := by
    rw [hmag]
    exact hbound
  have e1 : settle_pnl p.collateral (calculate_pnl p.size p.entry_price price).1
      (calculate_pnl p.size p.entry_price price).2
      = some (if (calculate_pnl p.size p.entry_price price).2
              then p.collateral + (calculate_pnl p.size p.entry_price price).1
              else if (calculate_pnl p.size p.entry_price price).1 ≤ p.collateral
              then p.collateral - (calculate_pnl p.size p.entry_price price).1
              else 0) :=
    settle_pnl_eq _ _ _ (fun _ => by omega)
  have e2 : settle_funding
      (if (calculate_pnl p.size p.entry_price price).2
       then p.collateral + (calculate_pnl p.size p.entry_price price).1
       else if (calculate_pnl p.size p.entry_price price).1 ≤ p.collateral
       then p.collateral - (calculate_pnl p.size p.entry_price price).1
       else 0)
      (calculate_funding_payment p.size p.last_funding_index m.funding_index).1
      (calculate_funding_payment p.size p.last_funding_index m.funding_index).2
      = some (close_settlement_spec m p price) :=
    settle_funding_eq _ _ _ (fun _ => by split_ifs <;> omega)
  refine ⟨hmag, ?_, ?_⟩
  · simp only [close_position, e1, e2]
    split
    · rename_i hlt
      simp [hlt]
    · rename_i hlt
      cases hagg : settle_aggregates m p.size <;> simp [hagg, hlt]
  · simp only [close_position, e1, e2]
    split
    · rename_i hlt
      intro hcontra
      contradiction
    · cases hagg : settle_aggregates m p.size
      · intro hcontra
        contradiction
      · intro hok
        simp only [Outcome.ok.injEq, Prod.mk.injEq] at hok
        exact hok.2.symm

end NovaDEX.Perp

namespace NovaDEX.Perp

/-- C5 witness: closing a 1-lot long opened at 5000 with collateral 250 at
exit price 5100 settles 350 and does not raise `SlippageExceeded` for
`min_receive_amount = 300`. -/
theorem close_position_settlement_spec_witness :
    (close_position ex_market_opened ex_position 5100 300
        = Outcome.err PerpError.SlippageExceeded
      ↔ close_settlement_spec ex_market_opened ex_position 5100 < 300) ∧
    (350 : Nat) = close_settlement_spec ex_market_opened ex_position 5100 := by
  have H := close_position_settlement_spec ex_market_opened ex_position 5100 300
    (init_market 500 250 100) 350 (by decide) (by decide)
  exact ⟨H.2.1, H.2.2 (by decide)⟩

/-- C6: in `liquidate_position` the pnl magnitude is deducted from the
collateral whatever its direction (clamped to 0); with
`margin_ratio = remaining * 10000 / (|size| * current_price)` the call
fails `CannotLiquidate` exactly when `margin_ratio` is not below the
maintenance ratio, fails `InsufficientCollateralForLiquidation` exactly
when it is below but the remaining collateral cannot cover the fee
`|size| * current_price * liquidation_fee / 10000`, and on success pays
that exact fee. -/
theorem liquidate_position_margin_spec
    (m : PerpetualMarket) (p : Position) (price : Nat)
    (m2 : PerpetualMarket) (fee : Nat)
    (hn0 : 0 < p.size.natAbs * price)
    (hnw : p.size.natAbs * price < U64)
    (hmr : (if (calculate_pnl p.size p.entry_price price).1 ≤ p.collateral
            then p.collateral - (calculate_pnl p.size p.entry_price price).1
            else 0) * 10000 / (p.size.natAbs * price) < U64)
    (hlf : p.size.natAbs * price * m.liquidation_fee < U64) :
    (liquidate_position m p price = Outcome.err PerpError.CannotLiquidate
      ↔ m.maintenance_margin_ratio
          ≤ (if (calculate_pnl p.size p.entry_price price).1 ≤ p.collateral
             then p.collateral - (calculate_pnl p.size p.entry_price price).1
             else 0) * 10000 / (p.size.natAbs * price)) ∧
    (liquidate_position m p price
        = Outcome.err PerpError.InsufficientCollateralForLiquidation
      ↔ ((if (calculate_pnl p.size p.entry_price price).1 ≤ p.collateral
          then p.collateral - (calculate_pnl p.size p.entry_price price).1
          else 0) * 10000 / (p.size.natAbs * price) < m.maintenance_margin_ratio ∧
         (if (calculate_pnl p.size p.entry_price price).1 ≤ p.collateral
          then p.collateral - (calculate_pnl p.size p.entry_price price).1
          else 0) < p.size.natAbs * price * m.liquidation_fee / 10000)) ∧
    (liquidate_position m p price = Outcome.ok (m2, fee)
      → fee = p.size.natAbs * price * m.liquidation_fee / 10000) := by
  have hwm : wmul p.size.natAbs price = p.size.natAbs * price := Nat.mod_eq_of_lt hnw
  have er : (if (calculate_pnl p.size p.entry_price price).1 ≤ p.collateral
        then checked_sub p.collateral (calculate_pnl p.size p.entry_price price).1
        else some 0)
      = some (if (calculate_pnl p.size p.entry_price price).1 ≤ p.collateral
              then p.collateral - (calculate_pnl p.size p.entry_price price).1
              else 0) := by
    unfold checked_sub
    split_ifs <;> simp_all
  have ed : checked_div ((if (calculate_pnl p.size p.entry_price price).1 ≤ p.collateral
        then p.collateral - (calculate_pnl p.size p.entry_price price).1
        else 0) * 10000) (p.size.natAbs * price)
      = some ((if (calculate_pnl p.size p.entry_price price).1 ≤ p.collateral
               then p.collateral - (calculate_pnl p.size p.entry_price price).1
               else 0) * 10000 / (p.size.natAbs * price)) := by
    rw [checked_div_some]
    exact ⟨by omega, rfl⟩
  have em : checked_mul (p.size.natAbs * price) m.liquidation_fee
      = some (p.size.natAbs * price * m.liquidation_fee) := by
    rw [checked_mul_some]
    exact ⟨hlf, rfl⟩
  have ef : checked_div (p.size.natAbs * price * m.liquidation_fee) 10000
      = some (p.size.natAbs * price * m.liquidation_fee / 10000) := by
    rw [checked_div_some]
    exact ⟨by omega, rfl⟩
  simp only [liquidate_position, hwm, er, ed, em, ef, Nat.mod_eq_of_lt hmr]
  by_cases hmlt : (if (calculate_pnl p.size p.entry_price price).1 ≤ p.collateral
      then p.collateral - (calculate_pnl p.size p.entry_price price).1
      else 0)
      * 10000 / (p.size.natAbs * price) < m.maintenance_margin_ratio
  · by_cases hrem : (if (calculate_pnl p.size p.entry_price price).1 ≤ p.collateral
      then p.collateral - (calculate_pnl p.size p.entry_price price).1
      else 0)
        < p.size.natAbs * price * m.liquidation_fee / 10000
    · rw [if_pos hmlt, if_pos hrem]
      refine ⟨⟨fun h => by simp at h, fun hge => absurd hmlt (by omega)⟩,
              ⟨fun _ => ⟨hmlt, hrem⟩, fun _ => rfl⟩,
              fun h => by simp at h⟩
    · rw [if_pos hmlt, if_neg hrem]
      cases hagg : settle_aggregates m p.size
      · simp only [hagg]
        refine ⟨⟨fun h => by simp at h, fun hge => absurd hmlt (by omega)⟩,
                ⟨fun h => by simp at h, fun hc => absurd hc.2 hrem⟩,
                fun h => by simp at h⟩
      · simp only [hagg]
        refine ⟨⟨fun h => by simp at h, fun hge => absurd hmlt (by omega)⟩,
                ⟨fun h => by simp at h, fun hc => absurd hc.2 hrem⟩,
                fun h => ?_⟩
        simp only [Outcome.ok.injEq, Prod.mk.injEq] at h
        exact h.2.symm
  · rw [if_neg hmlt]
    refine ⟨⟨fun h => by omega, fun hge => rfl⟩,
            ⟨fun h => by simp at h, fun hc => absurd hc.1 hmlt⟩,
            fun h => by simp at h⟩

/-- C6 witness: a concrete healthily margined long (margin ratio 294 bps,
maintenance 250 bps) fails `CannotLiquidate`, matching the margin-ratio
characterization; the fee equation holds vacuously. -/
theorem liquidate_position_margin_spec_witness :
    (liquidate_position ex_market_opened ex_position 5100
        = Outcome.err PerpError.CannotLiquidate
      ↔ ex_market_opened.maintenance_margin_ratio
          ≤ (if (calculate_pnl (1 : Int) 5000 5100).1 ≤ (250 : Nat)
             then 250 - (calculate_pnl (1 : Int) 5000 5100).1
             else 0) * 10000 / ((1 : Int).natAbs * 5100)) ∧
    (liquidate_position ex_market_opened ex_position 5100 = Outcome.ok (init_market 500 250 100, 51)
      → (51 : Nat) = (1 : Int).natAbs * 5100 * ex_market_opened.liquidation_fee / 10000) := by
  have H := liquidate_position_margin_spec ex_market_opened ex_position 5100
    (init_market 500 250 100) 51 (by decide) (by decide) (by decide) (by decide)
  exact ⟨H.1, H.2.2⟩

end NovaDEX.Perp
